import Mathlib

/-!
Verification of the File-Transfer ephemeral file lifecycle manager.

Shallow embedding of the Go sources:
  * `internal/models/files.go` — the metadata store access functions
    (`Insert`, `GetFromUser`, `GetAllFromUser`, `GetFromCode`,
    `UpdateFromUser`, `Delete`, `DeleteFromUser`) over a database state
    modelled as a `List File` of rows;
  * the HTTP handlers (`uploadFileHandler`, `getUserFileHandler`,
    `deleteUserFileHandler`, `getFileFromCodeHandler`) modelled as pure
    functions from the database, a filesystem state (where the handler
    touches the filesystem) and the request data to a response and the
    successor states; `updateUserFileHandler` enters the model through
    its store operation `UpdateFromUser`;
  * the helpers (`createFile`, `deleteFileInBackground`,
    `isFolderEmpty`, `deleteEmptyFolder`, `generateUniqueString`).

Wall-clock instants are modelled as natural numbers (seconds); SQL
`expiry > now()` becomes `now < expiry` on `Nat`.
-/

/-- A row of the `files` table / the `models.File` Go struct, fields in
source order (`ID, Name, Size, Path, Code, Expiry, CreatedAt,
LastUpdated, UserID`). -/
structure File where
  id : Int
  name : String
  size : Int
  path : String
  code : String
  expiry : Nat
  createdAt : Nat
  lastUpdated : Nat
  userId : Int
deriving DecidableEq, Repr

/-- The authenticated user as far as the file handlers use it
(`user.ID` and `user.Email`). -/
structure User where
  id : Int
  email : String
deriving DecidableEq, Repr

/-- Error values crossing the model/handler boundary.  `recordNotFound`
is `models.ErrRecordNotFound`, `duplicatePath` is
`models.ErrDuplicatePath`, `sqlNoRows` is the standard library's
`sql.ErrNoRows` (a distinct error value that `errors.Is` does not
identify with `ErrRecordNotFound`), and `other` carries any remaining
error text. -/
inductive ModelError where
  | recordNotFound
  | duplicatePath
  | sqlNoRows
  | other (msg : String)
deriving DecidableEq, Repr

/-- The `Error()` string of each modelled error value, used where the Go
code compares error messages textually. -/
def ModelError.message : ModelError → String
  | .recordNotFound => "record not found"
  | .duplicatePath => "duplicate path"
  | .sqlNoRows => "sql: no rows in result set"
  | .other msg => msg

/-- Filesystem state: the set of existing regular files (blob paths) and
the set of existing directories. -/
structure FS where
  blobs : List String
  dirs : List String
deriving DecidableEq, Repr

/-- Decidable equality for `Except`, so concrete store results can be
evaluated. -/
instance {ε α : Type} [DecidableEq ε] [DecidableEq α] : DecidableEq (Except ε α)
  | .error a, .error b =>
    if h : a = b then .isTrue (by rw [h]) else .isFalse (by intro hc; cases hc; exact h rfl)
  | .error _, .ok _ => .isFalse (by intro hc; cases hc)
  | .ok _, .error _ => .isFalse (by intro hc; cases hc)
  | .ok a, .ok b =>
    if h : a = b then .isTrue (by rw [h]) else .isFalse (by intro hc; cases hc; exact h rfl)

/-- Model of `filepath.Dir`: everything before the final slash, or `"."`
when there is no slash.  The `Clean` normalisation Go applies is
omitted because every caller in the source derives directory names
through this same function, so only internal consistency of the string
matters. -/
def dirOf (p : String) : String :=
  match p.data.reverse.dropWhile (fun c => c != '/') with
  | [] => "."
  | _ :: rest => ⟨rest.reverse⟩

/-- Model of `os.Remove` on a regular file: deletes the blob when it
exists, otherwise fails with the `*PathError` message the Go standard
library produces. -/
def FS.removeFile (fs : FS) (path : String) : Option String × FS :=
  if path ∈ fs.blobs then
    (none, ⟨fs.blobs.filter (fun b => b != path), fs.dirs⟩)
  else
    (some ("remove " ++ path ++ ": no such file or directory"), fs)

/-- Model of `os.Remove` on a directory (only invoked by the source on a
directory already checked to be empty). -/
def FS.removeDir (fs : FS) (path : String) : Option String × FS :=
  if path ∈ fs.dirs then
    (none, ⟨fs.blobs, fs.dirs.filter (fun d => d != path)⟩)
  else
    (some ("remove " ++ path ++ ": no such file or directory"), fs)

/-- Helper `isFolderEmpty`: `os.ReadDir` fails when the directory does
not exist; otherwise the directory is empty iff it contains no blob and
no (other) directory. -/
def isFolderEmpty (fs : FS) (dirPath : String) : Except String Bool :=
  if dirPath ∈ fs.dirs then
    .ok (fs.blobs.all (fun b => dirOf b != dirPath) &&
         fs.dirs.all (fun d => d == dirPath || dirOf d != dirPath))
  else
    .error ("open " ++ dirPath ++ ": no such file or directory")

/-- Helper `deleteEmptyFolder`: remove the directory only when
`isFolderEmpty` reports it empty; propagate the `ReadDir` error
otherwise. -/
def deleteEmptyFolder (fs : FS) (dirPath : String) : Option String × FS :=
  match isFolderEmpty fs dirPath with
  | .error e => (some e, fs)
  | .ok true => fs.removeDir dirPath
  | .ok false => (none, fs)

/-- Helper `createFile`: `os.MkdirAll` on the parent directory followed
by `os.Create` + `io.Copy`, which creates or truncates the blob at the
path. -/
def createFile (fs : FS) (filePath : String) : FS :=
  let withDir :=
    if dirOf filePath ∈ fs.dirs then fs.dirs else fs.dirs ++ [dirOf filePath]
  let withBlob :=
    if filePath ∈ fs.blobs then fs.blobs else fs.blobs ++ [filePath]
  ⟨withBlob, withDir⟩

/-- Modelled from the spec: the `internal/validator` package is not under
`src/`.  Per the spec's validation contract (fail static validation
before any I/O; `InvalidInput` collects keyed messages), `Check` records
a keyed failure exactly when its condition is false and `Valid` holds
iff no failure was recorded. -/
structure Validator where
  errors : List (String × String)
deriving DecidableEq, Repr

/-- Modelled from the spec: a fresh validator with no recorded errors
(`validator.New`). -/
def Validator.new : Validator := ⟨[]⟩

/-- Modelled from the spec: record a failure under a key, keeping the
first message per key. -/
def Validator.addError (v : Validator) (key msg : String) : Validator :=
  if v.errors.any (fun e => e.1 == key) then v else ⟨v.errors ++ [(key, msg)]⟩

/-- Modelled from the spec: `Check` records the failure message exactly
when the checked condition is false. -/
def Validator.check (v : Validator) (ok : Bool) (key msg : String) : Validator :=
  if ok then v else v.addError key msg

/-- Modelled from the spec: a validator is valid iff it recorded no
failure. -/
def Validator.valid (v : Validator) : Bool := v.errors.isEmpty

/-- The source's `ValidateFile`: name at most 50 bytes, size at most
1,000,000, code exactly 8 bytes.  Go `len` on a string counts bytes, so
the model uses `String.utf8ByteSize`. -/
def ValidateFile (v : Validator) (file : File) : Validator :=
  ((v.check (decide (file.name.utf8ByteSize ≤ 50)) "file_name"
        "must not be more than 50 bytes long").check
      (decide (file.size ≤ 1000000)) "file_size"
      "must not be more than 1_000_000 bytes big").check
    (decide (file.code.utf8ByteSize = 8)) "code" "must be 8 bytes long"

namespace FileModel

/-- The next `bigserial` id the database assigns on insertion. -/
def nextId (rows : List File) : Int :=
  rows.foldl (fun a f => max a f.id) 0 + 1

/-- The source's `FileModel.Insert`: `INSERT INTO files ... RETURNING
id, created_at, last_updated`.  The table has UNIQUE constraints on
`path` and on `code` (migration file); the Go code recognises exactly
the `files_path_key` violation text and maps it to
`ErrDuplicatePath`, so a `code` collision stays an unrecognised
error. -/
def Insert (rows : List File) (file : File) (now : Nat) :
    Except ModelError (List File × File) :=
  if rows.any (fun r => r.path == file.path) then
    .error .duplicatePath
  else if rows.any (fun r => r.code == file.code) then
    .error (.other "pq: duplicate key value violates unique constraint files_code_key")
  else
    let assigned := { file with id := nextId rows, createdAt := now, lastUpdated := now }
    .ok (rows ++ [assigned], assigned)

/-- The source's `FileModel.GetFromUser`: reject ids below 1, then
`SELECT ... WHERE id = $1 AND user_id = $2 AND expiry > $3`; a missing
row (`sql.ErrNoRows`) is mapped to `ErrRecordNotFound`. -/
def GetFromUser (rows : List File) (id uid : Int) (now : Nat) :
    Except ModelError File :=
  if id < 1 then .error .recordNotFound
  else
    match rows.find? (fun f => f.id == id && f.userId == uid && decide (now < f.expiry)) with
    | none => .error .recordNotFound
    | some f => .ok f

/-- The source's `FileModel.GetAllFromUser`: `SELECT ... WHERE user_id
= $1 AND expiry > $2`. -/
def GetAllFromUser (rows : List File) (uid : Int) (now : Nat) : List File :=
  rows.filter (fun f => f.userId == uid && decide (now < f.expiry))

/-- The source's `FileModel.GetFromCode`: `SELECT ... WHERE code = $1
AND expiry > $2`; a missing row is mapped to `ErrRecordNotFound`. -/
def GetFromCode (rows : List File) (code : String) (now : Nat) :
    Except ModelError File :=
  match rows.find? (fun f => f.code == code && decide (now < f.expiry)) with
  | none => .error .recordNotFound
  | some f => .ok f

/-- The row mutation `UpdateFromUser` applies: `SET expiry = now + 2
minutes, last_updated = now, code = fresh code` (120 seconds in the
model's clock). -/
def applyUpdate (f : File) (ncode : String) (now : Nat) : File :=
  { f with expiry := now + 120, lastUpdated := now, code := ncode }

/-- The match condition of the `UPDATE` in `UpdateFromUser`: `WHERE
path = $4 AND id = $5 AND user_id = $6 AND expiry > $7`. -/
def updateMatches (path : String) (id uid : Int) (now : Nat) (f : File) : Bool :=
  f.path == path && f.id == id && f.userId == uid && decide (now < f.expiry)

/-- The source's `FileModel.UpdateFromUser`: one conditional `UPDATE ...
RETURNING *`; zero matched rows surface as `sql.ErrNoRows`, which this
function maps to `ErrRecordNotFound`. -/
def UpdateFromUser (rows : List File) (path : String) (id uid : Int)
    (ncode : String) (now : Nat) : Except ModelError (List File × File) :=
  match rows.find? (updateMatches path id uid now) with
  | none => .error .recordNotFound
  | some f =>
    .ok (rows.map (fun g => if updateMatches path id uid now g then applyUpdate g ncode now else g),
         applyUpdate f ncode now)

/-- The row set the conditional `DELETE` of `FileModel.Delete` keeps:
everything except the rows with the given id that are still live. -/
def deleteRemaining (rows : List File) (id : Int) (now : Nat) : List File :=
  rows.filter (fun f => !(f.id == id && decide (now < f.expiry)))

/-- The source's `FileModel.Delete`: reject ids below 1, then `DELETE
FROM files WHERE id = $1 AND expiry > $2`; zero affected rows (the kept
rows having the original length) yield `ErrRecordNotFound`. -/
def Delete (rows : List File) (id : Int) (now : Nat) :
    Option ModelError × List File :=
  if id < 1 then (some .recordNotFound, rows)
  else if (deleteRemaining rows id now).length == rows.length then
    (some .recordNotFound, rows)
  else (none, deleteRemaining rows id now)

/-- The source's `FileModel.DeleteFromUser`: reject ids below 1, then
`DELETE ... WHERE id = $1 AND user_id = $2 AND expiry > $3 RETURNING
path`.  The Go function returns the raw `Scan` error through an
unconditional `return "", err`, so the switch below it that would map
`sql.ErrNoRows` to `ErrRecordNotFound` is unreachable: a missing row
surfaces as `sqlNoRows`, not `recordNotFound`. -/
def DeleteFromUser (rows : List File) (id uid : Int) (now : Nat) :
    Except ModelError (String × List File) :=
  if id < 1 then .error .recordNotFound
  else
    match rows.find? (fun f => f.id == id && f.userId == uid && decide (now < f.expiry)) with
    | none => .error .sqlNoRows
    | some f =>
      .ok (f.path, rows.filter (fun g => !(g.id == id && g.userId == uid && decide (now < g.expiry))))

end FileModel

/-- The outcome of one purge invocation (`deleteFileInBackground`): the
returned error, the database rows and the filesystem afterwards. -/
structure PurgeResult where
  err : Option String
  db : List File
  fs : FS
deriving DecidableEq, Repr

/-- The source's `deleteFileInBackground`: conditionally delete the
metadata row, swallowing the "record not found" message; remove the
blob, swallowing the "no such file or directory" message for its exact
path; remove the parent directory if empty, swallowing the "no such
file or directory" message for that directory. -/
def deleteFileInBackground (db : List File) (fs : FS) (filePath : String)
    (fileId : Int) (now : Nat) : PurgeResult :=
  let folderPath := dirOf filePath
  let d := FileModel.Delete db fileId now
  let dfail := match d.1 with
    | some e => e.message != "record not found"
    | none => false
  if dfail then ⟨d.1.map ModelError.message, d.2, fs⟩
  else
    let r := fs.removeFile filePath
    let rfail := match r.1 with
      | some m => m != ("remove " ++ filePath ++ ": no such file or directory")
      | none => false
    if rfail then ⟨r.1, d.2, r.2⟩
    else
      let f := deleteEmptyFolder r.2 folderPath
      let ffail := match f.1 with
        | some m => m != ("open " ++ folderPath ++ ": no such file or directory")
        | none => false
      if ffail then ⟨f.1, d.2, f.2⟩
      else ⟨none, d.2, f.2⟩

/-- The 62-rune alphanumeric alphabet of the source's `letterRunes`. -/
def letterRunes : List Char :=
  "abcdefghijklmnopqrstuvwxyzABCDEFGHIJKLMNOPQRSTUVWXYZ1234567890".toList

/-- Model of Go's `math/rand` source: `rand.NewSource(seed)` is a
deterministic generator whose whole output stream is a pure function of
the 64-bit seed.  The exact lagged-Fibonacci internals of the standard
library are replaced by a 64-bit linear congruential step; the
properties the source code relies on — determinism in the seed, and
`Intn n` landing in `[0, n)` — are preserved. -/
def lcgNext (s : Nat) : Nat :=
  (6364136223846793005 * s + 1442695040888963407) % (2 ^ 64)

/-- The rune list built by `generateUniqueString`'s loop: `k` draws of
`letterRunes[r.Intn(len(letterRunes))]` from the seeded source. -/
def genRunes : Nat → Nat → List Char
  | _, 0 => []
  | s, k + 1 =>
    let s2 := lcgNext s
    letterRunes.get ⟨s2 % letterRunes.length, Nat.mod_lt _ (by decide)⟩ :: genRunes s2 k

/-- The source's `generateUniqueString`: seed a fresh source with the
current `time.Now().UnixNano()` reading (the function's only varying
input, here the argument) and draw 8 runes from `letterRunes`. -/
def generateUniqueString (unixNano : Nat) : String :=
  ⟨genRunes (unixNano % 2 ^ 64) 8⟩

/-- Two concurrent calls of `generateUniqueString`, each seeding from
its own clock reading. -/
def concurrentCodes (t1 t2 : Nat) : String × String :=
  (generateUniqueString t1, generateUniqueString t2)

/-- The first response a handler commits to the client.  `ok` covers the
200-family JSON/stream successes, `accepted` is 202,
`failedValidation` is 422 with its keyed messages, `notFound` is 404,
`serverError` is 500, `badRequest` is 400. -/
inductive Response where
  | ok
  | accepted
  | notFound
  | serverError
  | badRequest
  | failedValidation (errs : List (String × String))
deriving DecidableEq, Repr

/-- The physical path the handlers compute:
`fmt.Sprintf("./cache/%s/%s", user.Email, handler.Filename)`. -/
def uploadPath (email filename : String) : String :=
  "./cache/" ++ email ++ "/" ++ filename

/-- The `models.File` value `uploadFileHandler` builds before insertion:
name and size from the multipart header, the deterministic path, a
freshly generated code, expiry two minutes from now (120 seconds in the
model's clock), the caller as owner. -/
def mkUploadFile (u : User) (filename : String) (fsize : Int)
    (gcode : String) (now : Nat) : File :=
  ⟨0, filename, fsize, uploadPath u.email filename, gcode, now + 120, 0, 0, u.id⟩

/-- Outcome of `uploadFileHandler`: the response, both stores, the delay
in seconds of the armed background-deletion timer (when one was armed),
and the inserted record (when insertion succeeded). -/
structure UploadResult where
  response : Response
  db : List File
  fs : FS
  timer : Option Nat
  file : Option File
deriving DecidableEq, Repr

/-- The source's `uploadFileHandler`: validate, insert the metadata row
(mapping the "duplicate path" error text to a 422 with the added
`("file", "path already exists")` message), only then write the blob,
and finally arm the background deletion job with a 30-second timer
(`time.NewTimer(30 * time.Second)`) racing the shutdown signal. -/
def uploadFileHandler (db : List File) (fs : FS) (u : User)
    (filename : String) (fsize : Int) (gcode : String) (now : Nat) : UploadResult :=
  let newFile := mkUploadFile u filename fsize gcode now
  let v := ValidateFile Validator.new newFile
  if !v.valid then ⟨.failedValidation v.errors, db, fs, none, none⟩
  else
    match FileModel.Insert db newFile now with
    | .error .duplicatePath =>
      ⟨.failedValidation (v.addError "file" "path already exists").errors, db, fs, none, none⟩
    | .error _ => ⟨.serverError, db, fs, none, none⟩
    | .ok (db2, inserted) =>
      let fs2 := createFile fs newFile.path
      ⟨.accepted, db2, fs2, some 30, some inserted⟩

/-- The source's `getUserFileHandler` after the id was parsed: ids
below 1 are a 404; `GetFromUser` errors map to 404 exactly for
`ErrRecordNotFound` and to 500 otherwise; on success the handler writes
the metadata record as JSON with 200.  It never opens the blob — it
takes no filesystem input at all — so a missing blob cannot influence
its response. -/
def getUserFileHandler (db : List File) (id uid : Int) (now : Nat) : Response :=
  if id < 1 then .notFound
  else
    match FileModel.GetFromUser db id uid now with
    | .error .recordNotFound => .notFound
    | .error _ => .serverError
    | .ok _ => .ok

/-- The source's `getFileFromCodeHandler`: resolve the code (404 exactly
for `ErrRecordNotFound`, 500 for any other store error), then `os.Open`
the recorded path — a missing blob is a 500, never a 404. -/
def getFileFromCodeHandler (db : List File) (fs : FS) (code : String)
    (now : Nat) : Response :=
  match FileModel.GetFromCode db code now with
  | .error .recordNotFound => .notFound
  | .error _ => .serverError
  | .ok f => if f.path ∈ fs.blobs then .ok else .serverError

/-- The source's `deleteUserFileHandler` after the id was parsed: ids
below 1 are a 404; any error from `DeleteFromUser` reaches
`serverErrorResponse` (the handler's error branch has no
`errors.Is(err, ErrRecordNotFound)` case, and its missing `return`
only lets execution continue into `os.Remove("")`, which fails and
returns — the committed response stays the 500); on success remove the
blob and then the parent directory if empty. -/
def deleteUserFileHandler (db : List File) (fs : FS) (id uid : Int)
    (now : Nat) : Response × List File × FS :=
  if id < 1 then (.notFound, db, fs)
  else
    match FileModel.DeleteFromUser db id uid now with
    | .error _ => (.serverError, db, fs)
    | .ok (path, db2) =>
      match fs.removeFile path with
      | (some _, fs2) => (.serverError, db2, fs2)
      | (none, fs2) =>
        match deleteEmptyFolder fs2 (dirOf path) with
        | (some _, fs3) => (.serverError, db2, fs3)
        | (none, fs3) => (.ok, db2, fs3)


/-! ## Helper lemmas about the conditional delete and the filesystem
primitives -/

lemma delete_fst_cases (rows : List File) (id : Int) (now : Nat) :
    (FileModel.Delete rows id now).1 = none ∨
    (FileModel.Delete rows id now).1 = some .recordNotFound := by
  unfold FileModel.Delete
  split
  · exact Or.inr rfl
  · split
    · exact Or.inr rfl
    · exact Or.inl rfl

lemma mem_delete_snd_live (rows : List File) (id : Int) (now : Nat) (f : File)
    (hid : ¬ id < 1) (hf : f ∈ (FileModel.Delete rows id now).2) (hfid : f.id = id) :
    f.expiry ≤ now := by
  have key : ∀ g : File, (!(g.id == id && decide (now < g.expiry))) = true →
      g.id = id → g.expiry ≤ now := by
    intro g hg hgid
    simp [hgid] at hg
    omega
  unfold FileModel.Delete at hf
  rw [if_neg hid] at hf
  split at hf
  · rename_i h
    have hlen : (FileModel.deleteRemaining rows id now).length = rows.length := eq_of_beq h
    have hsub : List.Sublist (FileModel.deleteRemaining rows id now) rows :=
      List.filter_sublist rows
    have heq : FileModel.deleteRemaining rows id now = rows := hsub.eq_of_length hlen
    have hall := List.filter_eq_self.mp heq
    exact key f (hall f hf) hfid
  · have hf2 : f ∈ rows.filter (fun g => !(g.id == id && decide (now < g.expiry))) := hf
    have hp := List.of_mem_filter hf2
    exact key f hp hfid

lemma removeFile_fst_cases (fs : FS) (path : String) :
    (fs.removeFile path).1 = none ∨
    (fs.removeFile path).1 = some ("remove " ++ path ++ ": no such file or directory") := by
  unfold FS.removeFile
  split
  · exact Or.inl rfl
  · exact Or.inr rfl

lemma removeFile_path_not_mem (fs : FS) (path : String) :
    path ∉ (fs.removeFile path).2.blobs := by
  by_cases h : path ∈ fs.blobs
  · simp [FS.removeFile, h, List.mem_filter]
  · simp [FS.removeFile, h]

lemma deleteEmptyFolder_fst_cases (fs : FS) (d : String) :
    (deleteEmptyFolder fs d).1 = none ∨
    (deleteEmptyFolder fs d).1 = some ("open " ++ d ++ ": no such file or directory") := by
  unfold deleteEmptyFolder isFolderEmpty
  by_cases h : d ∈ fs.dirs
  · rw [if_pos h]
    cases hb : (fs.blobs.all (fun b => dirOf b != d) &&
        fs.dirs.all (fun x => x == d || dirOf x != d))
    · exact Or.inl rfl
    · unfold FS.removeDir
      rw [if_pos h]
      exact Or.inl rfl
  · rw [if_neg h]
    exact Or.inr rfl

lemma deleteEmptyFolder_blobs (fs : FS) (d : String) :
    (deleteEmptyFolder fs d).2.blobs = fs.blobs := by
  unfold deleteEmptyFolder isFolderEmpty
  by_cases h : d ∈ fs.dirs
  · rw [if_pos h]
    cases hb : (fs.blobs.all (fun b => dirOf b != d) &&
        fs.dirs.all (fun x => x == d || dirOf x != d))
    · rfl
    · unfold FS.removeDir
      rw [if_pos h]
  · rw [if_neg h]

lemma purge_basic (db : List File) (fs : FS) (path : String) (id : Int) (now : Nat) :
    (deleteFileInBackground db fs path id now).err = none ∧
    (deleteFileInBackground db fs path id now).db = (FileModel.Delete db id now).2 ∧
    path ∉ (deleteFileInBackground db fs path id now).fs.blobs := by
  have hmem : path ∉ (deleteEmptyFolder (fs.removeFile path).2 (dirOf path)).2.blobs := by
    rw [deleteEmptyFolder_blobs]
    exact removeFile_path_not_mem fs path
  rcases delete_fst_cases db id now with hd | hd <;>
    rcases removeFile_fst_cases fs path with hr | hr <;>
    rcases deleteEmptyFolder_fst_cases (fs.removeFile path).2 (dirOf path) with hf | hf <;>
    simp [deleteFileInBackground, hd, hr, hf, ModelError.message, hmem]

/-! ## Claim theorems -/

/-- Claim C1 (counterexample to the claim as stated): purging a file
whose metadata row has already expired succeeds both times and removes
any blob, but the conditional `DELETE ... AND expiry > now` matches
nothing, so the expired metadata row itself is left in the table — a
residual metadata row, contradicting the claim that the double purge
leaves no residual metadata row. -/
theorem purge_twice_expired_row_residue :
    ((deleteFileInBackground [⟨1, "a.txt", 100, "./cache/u@x/a.txt", "abcdefgh", 5, 0, 0, 7⟩]
        ⟨[], []⟩ "./cache/u@x/a.txt" 1 10).err = none) ∧
    ((deleteFileInBackground
        (deleteFileInBackground [⟨1, "a.txt", 100, "./cache/u@x/a.txt", "abcdefgh", 5, 0, 0, 7⟩]
          ⟨[], []⟩ "./cache/u@x/a.txt" 1 10).db
        (deleteFileInBackground [⟨1, "a.txt", 100, "./cache/u@x/a.txt", "abcdefgh", 5, 0, 0, 7⟩]
          ⟨[], []⟩ "./cache/u@x/a.txt" 1 10).fs
        "./cache/u@x/a.txt" 1 10).err = none) ∧
    ((deleteFileInBackground
        (deleteFileInBackground [⟨1, "a.txt", 100, "./cache/u@x/a.txt", "abcdefgh", 5, 0, 0, 7⟩]
          ⟨[], []⟩ "./cache/u@x/a.txt" 1 10).db
        (deleteFileInBackground [⟨1, "a.txt", 100, "./cache/u@x/a.txt", "abcdefgh", 5, 0, 0, 7⟩]
          ⟨[], []⟩ "./cache/u@x/a.txt" 1 10).fs
        "./cache/u@x/a.txt" 1 10).db
      = [⟨1, "a.txt", 100, "./cache/u@x/a.txt", "abcdefgh", 5, 0, 0, 7⟩]) := by
  refine ⟨by decide, by decide, by decide⟩

/-- Claim C1 (amended): for every database, filesystem, path and
positive id, invoking `deleteFileInBackground` twice in a row yields
success (a `nil` error) both times — "no rows matched", "file does not
exist" and "directory does not exist" are all swallowed — and leaves no
blob at the path and no metadata row for the id that is still live;
a row whose expiry had already passed is left behind (invisible to
every query) because the conditional delete only removes live rows. -/
theorem purge_twice_success_no_live_residue (db : List File) (fs : FS)
    (path : String) (id : Int) (now1 now2 : Nat) (hid : 1 ≤ id) :
    (deleteFileInBackground db fs path id now1).err = none ∧
    (deleteFileInBackground (deleteFileInBackground db fs path id now1).db
        (deleteFileInBackground db fs path id now1).fs path id now2).err = none ∧
    path ∉ (deleteFileInBackground (deleteFileInBackground db fs path id now1).db
        (deleteFileInBackground db fs path id now1).fs path id now2).fs.blobs ∧
    ((deleteFileInBackground (deleteFileInBackground db fs path id now1).db
        (deleteFileInBackground db fs path id now1).fs path id now2).db.all
      (fun f => !(f.id == id) || decide (f.expiry ≤ now2))) = true := by
  obtain ⟨h1err, h1db, h1fs⟩ := purge_basic db fs path id now1
  obtain ⟨h2err, h2db, h2fs⟩ := purge_basic (deleteFileInBackground db fs path id now1).db
    (deleteFileInBackground db fs path id now1).fs path id now2
  refine ⟨h1err, h2err, h2fs, ?_⟩
  rw [h2db, List.all_eq_true]
  intro f hf
  by_cases hfid : f.id = id
  · have hle := mem_delete_snd_live _ id now2 f (by omega) hf hfid
    simp [hfid, hle]
  · simp [hfid]

/-- Witness for C1 at a concrete live record, blob and directory. -/
theorem purge_twice_success_no_live_residue_witness :
    (deleteFileInBackground [⟨1, "b.txt", 10, "./cache/u@x/b.txt", "zzzzzzzz", 100, 0, 0, 7⟩]
        ⟨["./cache/u@x/b.txt"], ["./cache/u@x"]⟩ "./cache/u@x/b.txt" 1 40).err = none ∧
    (deleteFileInBackground
        (deleteFileInBackground [⟨1, "b.txt", 10, "./cache/u@x/b.txt", "zzzzzzzz", 100, 0, 0, 7⟩]
          ⟨["./cache/u@x/b.txt"], ["./cache/u@x"]⟩ "./cache/u@x/b.txt" 1 40).db
        (deleteFileInBackground [⟨1, "b.txt", 10, "./cache/u@x/b.txt", "zzzzzzzz", 100, 0, 0, 7⟩]
          ⟨["./cache/u@x/b.txt"], ["./cache/u@x"]⟩ "./cache/u@x/b.txt" 1 40).fs
        "./cache/u@x/b.txt" 1 60).err = none ∧
    "./cache/u@x/b.txt" ∉ (deleteFileInBackground
        (deleteFileInBackground [⟨1, "b.txt", 10, "./cache/u@x/b.txt", "zzzzzzzz", 100, 0, 0, 7⟩]
          ⟨["./cache/u@x/b.txt"], ["./cache/u@x"]⟩ "./cache/u@x/b.txt" 1 40).db
        (deleteFileInBackground [⟨1, "b.txt", 10, "./cache/u@x/b.txt", "zzzzzzzz", 100, 0, 0, 7⟩]
          ⟨["./cache/u@x/b.txt"], ["./cache/u@x"]⟩ "./cache/u@x/b.txt" 1 40).fs
        "./cache/u@x/b.txt" 1 60).fs.blobs ∧
    ((deleteFileInBackground
        (deleteFileInBackground [⟨1, "b.txt", 10, "./cache/u@x/b.txt", "zzzzzzzz", 100, 0, 0, 7⟩]
          ⟨["./cache/u@x/b.txt"], ["./cache/u@x"]⟩ "./cache/u@x/b.txt" 1 40).db
        (deleteFileInBackground [⟨1, "b.txt", 10, "./cache/u@x/b.txt", "zzzzzzzz", 100, 0, 0, 7⟩]
          ⟨["./cache/u@x/b.txt"], ["./cache/u@x"]⟩ "./cache/u@x/b.txt" 1 40).fs
        "./cache/u@x/b.txt" 1 60).db.all
      (fun f => !(f.id == 1) || decide (f.expiry ≤ 60))) = true :=
  purge_twice_success_no_live_residue
    [⟨1, "b.txt", 10, "./cache/u@x/b.txt", "zzzzzzzz", 100, 0, 0, 7⟩]
    ⟨["./cache/u@x/b.txt"], ["./cache/u@x"]⟩ "./cache/u@x/b.txt" 1 40 60 (by decide)

/-- Claim C2 (code bug evidence): deleting file id 1, which exists but
belongs to user 2, as user 1 — `DeleteFromUser` returns the raw
`sql.ErrNoRows` (its mapping to `ErrRecordNotFound` sits after an
unconditional `return` and is dead code), and `deleteUserFileHandler`
maps every error from it to the generic 500 server error, not to the
404 the claim requires; the same happens when no record exists at
all. -/
theorem deleteUserFile_mismatch_is_server_error :
    FileModel.DeleteFromUser
        [⟨1, "a.txt", 100, "./cache/owner@x/a.txt", "abcdefgh", 100, 0, 0, 2⟩] 1 1 0
      = .error .sqlNoRows ∧
    (deleteUserFileHandler
        [⟨1, "a.txt", 100, "./cache/owner@x/a.txt", "abcdefgh", 100, 0, 0, 2⟩]
        ⟨["./cache/owner@x/a.txt"], ["./cache/owner@x"]⟩ 1 1 0).1 = .serverError ∧
    (deleteUserFileHandler
        [⟨1, "a.txt", 100, "./cache/owner@x/a.txt", "abcdefgh", 100, 0, 0, 2⟩]
        ⟨["./cache/owner@x/a.txt"], ["./cache/owner@x"]⟩ 1 1 0).1 ≠ .notFound ∧
    (deleteUserFileHandler ([] : List File) ⟨[], []⟩ 1 1 0).1 = .serverError := by
  refine ⟨by decide, by decide, by decide, by decide⟩

/-- Claim C3 (code bug evidence): a successful upload stores a record
whose expiry is 120 seconds away (now 1000, expiry 1120) yet arms the
background deletion timer at 30 seconds, not the 120-second lifetime
the claim states; firing the purge at that moment (now 1030) deletes
the still-live record 90 seconds before its stored expiry. -/
theorem uploadFileHandler_timer_thirty_seconds :
    (uploadFileHandler [] ⟨[], []⟩ ⟨7, "u@x"⟩ "a.txt" 100 "abcdefgh" 1000).response = .accepted ∧
    (uploadFileHandler [] ⟨[], []⟩ ⟨7, "u@x"⟩ "a.txt" 100 "abcdefgh" 1000).timer = some 30 ∧
    (uploadFileHandler [] ⟨[], []⟩ ⟨7, "u@x"⟩ "a.txt" 100 "abcdefgh" 1000).file.map File.expiry
      = some 1120 ∧
    (uploadFileHandler [] ⟨[], []⟩ ⟨7, "u@x"⟩ "a.txt" 100 "abcdefgh" 1000).timer
      ≠ some (1120 - 1000) ∧
    (deleteFileInBackground
      (uploadFileHandler [] ⟨[], []⟩ ⟨7, "u@x"⟩ "a.txt" 100 "abcdefgh" 1000).db
      (uploadFileHandler [] ⟨[], []⟩ ⟨7, "u@x"⟩ "a.txt" 100 "abcdefgh" 1000).fs
      (uploadPath "u@x" "a.txt") 1 1030).db = [] := by
  refine ⟨by decide, by decide, by decide, by decide, by decide⟩

/-- Claim C4: a record whose expiry is not in the future is excluded
from retrieval by owner and id, from listing, and from retrieval by
public code — each query filters on `expiry > now` at query time,
regardless of the filesystem state (which none of these queries
consults). -/
theorem expired_record_excluded_from_queries (rows : List File) (f : File)
    (id uid : Int) (code : String) (now : Nat) (hf : f.expiry ≤ now) :
    FileModel.GetFromUser rows id uid now ≠ .ok f ∧
    f ∉ FileModel.GetAllFromUser rows uid now ∧
    FileModel.GetFromCode rows code now ≠ .ok f := by
  refine ⟨?_, ?_, ?_⟩
  · intro h
    unfold FileModel.GetFromUser at h
    by_cases hid : id < 1
    · rw [if_pos hid] at h
      exact absurd h (by simp)
    · rw [if_neg hid] at h
      cases hfind : rows.find? (fun g => g.id == id && g.userId == uid && decide (now < g.expiry)) with
      | none => rw [hfind] at h; exact absurd h (by simp)
      | some g =>
        rw [hfind] at h
        have hp := List.find?_some hfind
        have hgf : g = f := by simpa using h
        subst hgf
        simp at hp
        omega
  · intro h
    unfold FileModel.GetAllFromUser at h
    have hp := List.of_mem_filter h
    simp at hp
    omega
  · intro h
    unfold FileModel.GetFromCode at h
    cases hfind : rows.find? (fun g => g.code == code && decide (now < g.expiry)) with
    | none => rw [hfind] at h; exact absurd h (by simp)
    | some g =>
      rw [hfind] at h
      have hp := List.find?_some hfind
      have hgf : g = f := by simpa using h
      subst hgf
      simp at hp
      omega

/-- Witness for C4 at a concrete expired record. -/
theorem expired_record_excluded_witness :
    FileModel.GetFromUser [⟨1, "a.txt", 100, "./cache/u@x/a.txt", "abcdefgh", 5, 0, 0, 7⟩] 1 7 10
      ≠ .ok ⟨1, "a.txt", 100, "./cache/u@x/a.txt", "abcdefgh", 5, 0, 0, 7⟩ ∧
    (⟨1, "a.txt", 100, "./cache/u@x/a.txt", "abcdefgh", 5, 0, 0, 7⟩ : File)
      ∉ FileModel.GetAllFromUser [⟨1, "a.txt", 100, "./cache/u@x/a.txt", "abcdefgh", 5, 0, 0, 7⟩] 7 10 ∧
    FileModel.GetFromCode [⟨1, "a.txt", 100, "./cache/u@x/a.txt", "abcdefgh", 5, 0, 0, 7⟩] "abcdefgh" 10
      ≠ .ok ⟨1, "a.txt", 100, "./cache/u@x/a.txt", "abcdefgh", 5, 0, 0, 7⟩ :=
  expired_record_excluded_from_queries
    [⟨1, "a.txt", 100, "./cache/u@x/a.txt", "abcdefgh", 5, 0, 0, 7⟩]
    ⟨1, "a.txt", 100, "./cache/u@x/a.txt", "abcdefgh", 5, 0, 0, 7⟩ 1 7 "abcdefgh" 10 (by decide)

/-- Claim C5: when the upload input validates but the computed path
already has a record, the handler inserts first, the store reports the
path conflict, the operation fails as a validation-style conflict with
exactly the "path already exists" message, and neither the database nor
the filesystem changes — in particular no blob write is attempted and
the first record and its blob are untouched. -/
theorem duplicate_path_rejected_before_blob_write (db : List File) (fs : FS) (u : User)
    (filename : String) (fsize : Int) (gcode : String) (now : Nat)
    (hv : (ValidateFile Validator.new (mkUploadFile u filename fsize gcode now)).valid = true)
    (hdup : ∃ r ∈ db, r.path = uploadPath u.email filename) :
    uploadFileHandler db fs u filename fsize gcode now =
      ⟨.failedValidation [("file", "path already exists")], db, fs, none, none⟩ := by
  have hany : (db.any (fun r => r.path == (mkUploadFile u filename fsize gcode now).path)) = true := by
    rw [List.any_eq_true]
    obtain ⟨r, hr, hpath⟩ := hdup
    exact ⟨r, hr, by simpa [mkUploadFile] using hpath⟩
  have hverr : (ValidateFile Validator.new (mkUploadFile u filename fsize gcode now)).errors = [] := by
    have hv2 := hv
    unfold Validator.valid at hv2
    simpa using hv2
  simp only [uploadFileHandler, FileModel.Insert, hv, hany, Bool.not_true, if_true, if_false,
    Bool.false_eq_true, Validator.addError, hverr]
  simp

/-- Witness for C5 at a concrete occupied path. -/
theorem duplicate_path_rejected_witness :
    uploadFileHandler [⟨1, "a.txt", 100, "./cache/u@x/a.txt", "12345678", 100, 0, 0, 7⟩]
        ⟨["./cache/u@x/a.txt"], ["./cache/u@x"]⟩ ⟨7, "u@x"⟩ "a.txt" 50 "abcdefgh" 90 =
      ⟨.failedValidation [("file", "path already exists")],
        [⟨1, "a.txt", 100, "./cache/u@x/a.txt", "12345678", 100, 0, 0, 7⟩],
        ⟨["./cache/u@x/a.txt"], ["./cache/u@x"]⟩, none, none⟩ :=
  duplicate_path_rejected_before_blob_write
    [⟨1, "a.txt", 100, "./cache/u@x/a.txt", "12345678", 100, 0, 0, 7⟩]
    ⟨["./cache/u@x/a.txt"], ["./cache/u@x"]⟩ ⟨7, "u@x"⟩ "a.txt" 50 "abcdefgh" 90
    (by decide) (by decide)

/-- Claim C6: the replacement update is a single conditional update
keyed by path, id, owner and liveness — when no row matches, the result
is `recordNotFound`; when a row matches, the returned row has expiry
now + 120 seconds, a refreshed `last_updated`, the freshly generated
code and the matched keys, and the database maps exactly the matching
rows through that update, leaving every other row unchanged. -/
theorem updateFromUser_conditional_update (rows : List File) (path : String) (id uid : Int)
    (ncode : String) (now : Nat) :
    ((∀ f ∈ rows, FileModel.updateMatches path id uid now f = false) →
      FileModel.UpdateFromUser rows path id uid ncode now = .error .recordNotFound) ∧
    (∀ db2 g, FileModel.UpdateFromUser rows path id uid ncode now = .ok (db2, g) →
      g.expiry = now + 120 ∧ g.lastUpdated = now ∧ g.code = ncode ∧
      g.path = path ∧ g.id = id ∧ g.userId = uid ∧
      db2 = rows.map (fun r => if FileModel.updateMatches path id uid now r
        then FileModel.applyUpdate r ncode now else r)) := by
  constructor
  · intro hnone
    unfold FileModel.UpdateFromUser
    have hfind : rows.find? (FileModel.updateMatches path id uid now) = none := by
      rw [List.find?_eq_none]
      intro x hx
      simp [hnone x hx]
    rw [hfind]
  · intro db2 g h
    unfold FileModel.UpdateFromUser at h
    cases hfind : rows.find? (FileModel.updateMatches path id uid now) with
    | none => rw [hfind] at h; cases h
    | some f =>
      rw [hfind] at h
      have hp := List.find?_some hfind
      unfold FileModel.updateMatches at hp
      simp at hp
      obtain ⟨⟨⟨hpath, hid⟩, huid⟩, hlive⟩ := hp
      simp at h
      obtain ⟨hdb, hg⟩ := h
      subst hdb
      subst hg
      refine ⟨rfl, rfl, rfl, ?_, ?_, ?_, rfl⟩
      · simpa [FileModel.applyUpdate] using hpath
      · simpa [FileModel.applyUpdate] using hid
      · simpa [FileModel.applyUpdate] using huid

/-- Witness for C6: an expired row is not matched (`recordNotFound`) and
a live matched row gets expiry now + 120. -/
theorem updateFromUser_conditional_update_witness :
    FileModel.UpdateFromUser
        [⟨1, "a.txt", 100, "./cache/u@x/a.txt", "abcdefgh", 5, 0, 0, 7⟩]
        "./cache/u@x/a.txt" 1 7 "ABCDEFGH" 50 = .error .recordNotFound ∧
    (FileModel.applyUpdate ⟨1, "a.txt", 100, "./cache/u@x/a.txt", "abcdefgh", 100, 0, 0, 7⟩
        "ABCDEFGH" 50).expiry = 170 :=
  ⟨(updateFromUser_conditional_update
      [⟨1, "a.txt", 100, "./cache/u@x/a.txt", "abcdefgh", 5, 0, 0, 7⟩]
      "./cache/u@x/a.txt" 1 7 "ABCDEFGH" 50).1 (by decide),
   ((updateFromUser_conditional_update
      [⟨1, "a.txt", 100, "./cache/u@x/a.txt", "abcdefgh", 100, 0, 0, 7⟩]
      "./cache/u@x/a.txt" 1 7 "ABCDEFGH" 50).2
      [FileModel.applyUpdate ⟨1, "a.txt", 100, "./cache/u@x/a.txt", "abcdefgh", 100, 0, 0, 7⟩ "ABCDEFGH" 50]
      (FileModel.applyUpdate ⟨1, "a.txt", 100, "./cache/u@x/a.txt", "abcdefgh", 100, 0, 0, 7⟩ "ABCDEFGH" 50)
      (by decide)).1⟩

/-- Claim C7 (counterexample to the claim as stated): the by-owner-and-id
retrieval resolves a live metadata record (id 1, owner 7, expiry 100 at
now 10) whose blob is missing from the filesystem, yet its handler
responds 200 with the metadata — not an internal server error — because
`getUserFileHandler` never opens the blob; the server-side inconsistency
passes as silent success in this retrieval mode, refuting the claim for
"every retrieval". -/
theorem missing_blob_by_id_silent_success :
    FileModel.GetFromUser [⟨1, "a.txt", 100, "./cache/u@x/a.txt", "abcdefgh", 100, 0, 0, 7⟩] 1 7 10
      = .ok ⟨1, "a.txt", 100, "./cache/u@x/a.txt", "abcdefgh", 100, 0, 0, 7⟩ ∧
    "./cache/u@x/a.txt" ∉ (⟨[], []⟩ : FS).blobs ∧
    getUserFileHandler [⟨1, "a.txt", 100, "./cache/u@x/a.txt", "abcdefgh", 100, 0, 0, 7⟩] 1 7 10
      = .ok ∧
    getUserFileHandler [⟨1, "a.txt", 100, "./cache/u@x/a.txt", "abcdefgh", 100, 0, 0, 7⟩] 1 7 10
      ≠ .serverError := by
  refine ⟨by decide, by decide, by decide, by decide⟩

/-- Claim C7 (amended): of the two retrieval modes, only the
public-code retrieval opens the blob at the recorded path — there a
live metadata record whose blob is missing is reported as the generic
500 server error, in particular never the 404 used for an unknown or
expired code; the by-owner-and-id retrieval never opens the blob and
returns 200 with the metadata whenever the store resolves the record,
so a missing blob is not reported in that mode. -/
theorem missing_blob_reported_only_by_code_retrieval (db : List File) (fs : FS)
    (code : String) (id uid : Int) (now : Nat) (f : File) :
    (FileModel.GetFromCode db code now = .ok f → f.path ∉ fs.blobs →
      getFileFromCodeHandler db fs code now = .serverError) ∧
    (FileModel.GetFromUser db id uid now = .ok f →
      getUserFileHandler db id uid now = .ok) := by
  constructor
  · intro hok hmiss
    unfold getFileFromCodeHandler
    rw [hok]
    simp [hmiss]
  · intro hok
    have hid : ¬ id < 1 := by
      intro hlt
      unfold FileModel.GetFromUser at hok
      rw [if_pos hlt] at hok
      cases hok
    unfold getUserFileHandler
    rw [if_neg hid, hok]

/-- Witness for C7 (amended) at a concrete live record with no blob on
disk: the by-code retrieval answers 500, the by-id retrieval answers
200. -/
theorem missing_blob_reported_only_by_code_retrieval_witness :
    getFileFromCodeHandler [⟨1, "a.txt", 100, "./cache/u@x/a.txt", "abcdefgh", 100, 0, 0, 7⟩]
      ⟨[], []⟩ "abcdefgh" 10 = .serverError ∧
    getUserFileHandler [⟨1, "a.txt", 100, "./cache/u@x/a.txt", "abcdefgh", 100, 0, 0, 7⟩]
      1 7 10 = .ok :=
  ⟨(missing_blob_reported_only_by_code_retrieval
      [⟨1, "a.txt", 100, "./cache/u@x/a.txt", "abcdefgh", 100, 0, 0, 7⟩] ⟨[], []⟩
      "abcdefgh" 1 7 10 ⟨1, "a.txt", 100, "./cache/u@x/a.txt", "abcdefgh", 100, 0, 0, 7⟩).1
      (by decide) (by decide),
   (missing_blob_reported_only_by_code_retrieval
      [⟨1, "a.txt", 100, "./cache/u@x/a.txt", "abcdefgh", 100, 0, 0, 7⟩] ⟨[], []⟩
      "abcdefgh" 1 7 10 ⟨1, "a.txt", 100, "./cache/u@x/a.txt", "abcdefgh", 100, 0, 0, 7⟩).2
      (by decide)⟩

/-- Claim C8 (counterexample to the claim as stated): two distinct calls
of the code generator that observe the same `UnixNano` clock reading
seed identical sources and therefore produce identical — maximally
correlated — codes, refuting "two distinct calls never produce
identical or correlated codes merely because they occur at the same
time". -/
theorem same_instant_calls_identical_codes :
    (concurrentCodes 1735689600000000000 1735689600000000000).1 =
      (concurrentCodes 1735689600000000000 1735689600000000000).2 := rfl

/-- Claim C8 (amended): the generator output is a deterministic function
of the observed nanosecond timestamp used as seed, so two concurrent
calls produce identical codes exactly when their clock readings
coincide; per-call reseeding decorrelates calls only when the readings
differ. -/
theorem concurrentCodes_determined_by_timestamp (t1 t2 : Nat) (h : t1 = t2) :
    (concurrentCodes t1 t2).1 = (concurrentCodes t1 t2).2 := by
  subst h; rfl

/-- Witness for C8 (amended) at a concrete shared timestamp. -/
theorem concurrentCodes_determined_by_timestamp_witness :
    (concurrentCodes 42 42).1 = (concurrentCodes 42 42).2 :=
  concurrentCodes_determined_by_timestamp 42 42 rfl

lemma genRunes_length (s k : Nat) : (genRunes s k).length = k := by
  induction k generalizing s with
  | zero => rfl
  | succ n ih => simp [genRunes, ih]

lemma genRunes_mem (s k : Nat) (c : Char) (hc : c ∈ genRunes s k) : c ∈ letterRunes := by
  induction k generalizing s with
  | zero => cases hc
  | succ n ih =>
    simp only [genRunes] at hc
    rcases List.mem_cons.mp hc with h | h
    · rw [h]
      exact List.get_mem _ _ _
    · exact ih _ h

/-- Claim C9: for every seed, the generated code is exactly 8 characters
long and each character is drawn from `letterRunes`, the 62-symbol
alphanumeric alphabet. -/
theorem generateUniqueString_length_and_alphabet (seed : Nat) :
    (generateUniqueString seed).length = 8 ∧
    ((generateUniqueString seed).data.all (fun c => letterRunes.contains c)) = true ∧
    letterRunes.length = 62 := by
  refine ⟨?_, ?_, by decide⟩
  · exact genRunes_length _ 8
  · rw [List.all_eq_true]
    intro c hc
    have hmem : c ∈ letterRunes := genRunes_mem _ 8 c hc
    simpa using hmem

/-- Claim C10: `ValidateFile` accepts exactly the files whose name is at
most 50 bytes, size at most 1,000,000 and code exactly 8 bytes — only
upper bounds, so an empty name together with a zero or negative size is
accepted whenever the code has 8 bytes. -/
theorem validateFile_upper_bounds_only (f : File) :
    ((ValidateFile Validator.new f).valid = true ↔
      (f.name.utf8ByteSize ≤ 50 ∧ f.size ≤ 1000000 ∧ f.code.utf8ByteSize = 8)) ∧
    (∀ (sz : Int) (code : String), sz ≤ 0 → code.utf8ByteSize = 8 →
      (ValidateFile Validator.new ⟨0, "", sz, "", code, 0, 0, 0, 0⟩).valid = true) := by
  have main : ∀ g : File, ((ValidateFile Validator.new g).valid = true ↔
      (g.name.utf8ByteSize ≤ 50 ∧ g.size ≤ 1000000 ∧ g.code.utf8ByteSize = 8)) := by
    intro g
    by_cases h1 : g.name.utf8ByteSize ≤ 50 <;>
      by_cases h2 : g.size ≤ 1000000 <;>
        by_cases h3 : g.code.utf8ByteSize = 8 <;>
          simp [ValidateFile, Validator.check, Validator.addError, Validator.new,
            Validator.valid, h1, h2, h3]
  refine ⟨main f, ?_⟩
  intro sz code hsz hcode
  apply (main ⟨0, "", sz, "", code, 0, 0, 0, 0⟩).mpr
  refine ⟨?_, ?_, ?_⟩
  · show ("" : String).utf8ByteSize ≤ 50
    decide
  · show sz ≤ 1000000
    omega
  · exact hcode

/-- Witness for C10: the empty name with a negative size and an
8-byte code validates. -/
theorem validateFile_upper_bounds_only_witness :
    (ValidateFile Validator.new ⟨0, "", -5, "", "abcdefgh", 0, 0, 0, 0⟩).valid = true :=
  (validateFile_upper_bounds_only ⟨0, "", -5, "", "abcdefgh", 0, 0, 0, 0⟩).2
    (-5) "abcdefgh" (by decide) (by decide)
